import Mathlib

/-!
Shallow embedding of the handcrafted dialogue policy
(`adviser/services/policy/policy_handcrafted.py`).

Modelling conventions:
* Python strings are `String`; a `None` stored in a database row or belief
  field is modelled as the empty string (both are falsy in the source and
  the source never distinguishes them), while the literal string "None" is
  kept as such because `_convert_inform_by_primkey` tests for it explicitly.
* Python `dict`s keyed by strings are association lists in insertion order.
* Confidence scores attached to informed values (floats in the source) are
  modelled as rationals; no decision in the source does arithmetic on them
  beyond comparison for sorting.
* Python's built-in `sorted` is modelled by `py_sorted`, a stable insertion
  sort (Python guarantees a stable sort; the model keeps exactly that
  contract).
* Side effects on the database (`enter_rating` / `enter_review`) are
  modelled as an explicit list of emitted `DbCall`s.
-/

namespace Handcrafted

/-- User action types from `utils.useract.UserActionType` (the enum itself is
not under `src/`; the member names are exactly those referenced by
`policy_handcrafted.py`, plus generic `Inform`/`Request` members that a
belief state may contain). -/
inductive UserActionType where
  | Inform
  | NegativeInform
  | Request
  | Hello
  | Bye
  | Thanks
  | RequestAlternatives
  | Bad
  | SelectDomain
  | NewDialogue
  | GiveRating
  | WriteReview
  | WrittenReview
  | AskDistance
  | InformStartPoint
  | InformDistanceManner
  | AskOpeningDay
  | AskManner
  deriving DecidableEq

/-- System action types from `utils.sysact.SysActionType`, exactly the tags
produced by `policy_handcrafted.py`. -/
inductive SysActionType where
  | Welcome
  | InformByName
  | InformByAlternatives
  | Request
  | RequestMore
  | Bad
  | Bye
  | GuideUser
  | ConfirmGiveRating
  | AskWriteReview
  | ConfirmWriteReview
  | AskStartPoint
  | AskDistanceManner
  | InformDistance
  | BadTravelManner
  | BadAddress
  | InformOpeningDay
  | InformManner
  | WhatDoYouWant
  deriving DecidableEq

/-- Values stored under a slot of a system action.  The policy passes either
a single string, a whole Python list of strings
(`sys_act.add_value(c, constraints[c])`), or `None` (when `_get_name`
returned `None`). -/
inductive PyVal where
  | str (s : String)
  | strList (l : List String)
  | pnone
  deriving DecidableEq

/-- Association-list lookup in insertion order (a Python dict access that
returns `none` instead of raising `KeyError`). -/
def lookupSlot (slot : String) : List (String × α) → Option α
  | [] => none
  | (s, v) :: l => if s = slot then some v else lookupSlot slot l

/-- Modelled from the spec: `utils.sysact.SysAct` is not under `src/`.  The
spec describes a system action as "a tag ... plus an ordered mapping from
slot name to one or more values"; `add_value` appends the given value to the
slot's value list, creating the (initially empty) entry if the slot is new,
and a call without a value only creates the entry. -/
structure SysAct where
  type : SysActionType
  slot_values : List (String × List PyVal)
  deriving DecidableEq

/-- Appends an optional value to `slot`'s entry, creating the entry at the
end (defaultdict behaviour) when absent. -/
def addToSlot (slot : String) (v : Option PyVal) :
    List (String × List PyVal) → List (String × List PyVal)
  | [] => [(slot, v.toList)]
  | (s, vs) :: rest =>
    if s = slot then (s, vs ++ v.toList) :: rest
    else (s, vs) :: addToSlot slot v rest

/-- Modelled from the spec (see `SysAct`): add a value for a slot. -/
def SysAct.add_value (act : SysAct) (slot : String) (value : Option PyVal) :
    SysAct :=
  { act with slot_values := addToSlot slot value act.slot_values }

/-- Modelled from the spec (see `SysAct`): the values currently stored for a
slot (empty when the slot is absent). -/
def SysAct.get_values (act : SysAct) (slot : String) : List PyVal :=
  (lookupSlot slot act.slot_values).getD []

/-- One database row: an ordered mapping from column name to string value
(an SQL `NULL` is the empty string, see the module conventions). -/
abbrev Row := List (String × String)

/-- Row access `result[k]` where a missing key yields the empty string (the
source would raise `KeyError`; no modelled run reaches that case with a
missing key). -/
def rowGetS (r : Row) (k : String) : String :=
  (lookupSlot k r).getD ""

/-- Keys of a row, in column order. -/
def rowKeys (r : Row) : List String :=
  r.map (·.1)

/-- The domain capability consumed by the policy
(`utils.domain.jsonlookupdomain.JSONLookupDomain`), exposed as a record of
query functions exactly as the policy calls them. -/
structure Domain where
  get_primary_key : String
  get_system_requestable_slots : List String
  get_possible_values : String → List String
  find_entities : List (String × List String) → List Row
  find_info_about_entity : String → List String → List Row
  distance_duration : String → Option String → String → Option String × Option String
  query_opening_info : String → Option String → String
  query_manner_info : String → Option String → String

/-- The belief state consumed by the policy: the per-turn user action list,
the informed slots (slot ↦ value ↦ confidence score, in insertion order),
the requested slots, and the scalar fields of the auxiliary flows. -/
structure BeliefState where
  user_acts : List UserActionType
  informs : List (String × List (String × ℚ))
  requests : List String
  given_rating : String
  review : String
  start_point : String
  distance_manner : String
  req_openingday : String
  req_manner : String

/-- Per-session mutable fields of `HandcraftedPolicy`. -/
structure PolicyState where
  first_turn : Bool
  current_suggestions : List Row
  s_index : Int
  turns : Nat
  max_turns : Nat
  deriving DecidableEq

/-- Database mutations issued through the domain
(`enter_rating` / `enter_review`); the entity name is `None` when
`_get_name` found nothing. -/
inductive DbCall where
  | enter_rating (value : String) (name : Option String)
  | enter_review (text : String) (name : Option String)
  deriving DecidableEq

/-- The full result of one `choose_sys_act` invocation: the emitted action,
the updated session state and the database mutations performed on the way. -/
structure PolicyResult where
  sys_act : SysAct
  state : PolicyState
  db_calls : List DbCall
  deriving DecidableEq

/-- Source `dialog_start` (lines 70-77): reset the per-dialog fields. -/
def dialog_start (st : PolicyState) : PolicyState :=
  { st with
    turns := 0
    first_turn := true
    current_suggestions := []
    s_index := 0 }

/-- Python list indexing `l[i]`, including the negative-index-from-the-end
convention. -/
def pyGet (l : List Row) (i : Int) : Option Row :=
  if 0 ≤ i then l.get? i.toNat
  else
    let j : Int := (l.length : Int) + i
    if 0 ≤ j then l.get? j.toNat else none

/-- Loop body of `_remove_gen_actions` (lines 307-315): while more than one
user act remains, remove a `Thanks`, else a `Bad`, else a `Hello`; stop when
only one act remains or none of the three is present.  Each iteration
removes exactly one element, so the loop runs at most `l.length` times; the
explicit fuel argument makes the recursion structural (fuel exhaustion is
unreachable from `remove_gen_actions`, see
`remove_gen_actions_loop_fuel_irrel`). -/
def remove_gen_actions_loop :
    Nat → List UserActionType → List UserActionType
  | 0, l => l
  | fuel + 1, l =>
    if l.length > 1 then
      if UserActionType.Thanks ∈ l then
        remove_gen_actions_loop fuel (l.erase UserActionType.Thanks)
      else if UserActionType.Bad ∈ l then
        remove_gen_actions_loop fuel (l.erase UserActionType.Bad)
      else if UserActionType.Hello ∈ l then
        remove_gen_actions_loop fuel (l.erase UserActionType.Hello)
      else l
    else l

/-- Source `_remove_gen_actions` (lines 292-315): run the filler-removal
loop to completion. -/
def remove_gen_actions (l : List UserActionType) : List UserActionType :=
  remove_gen_actions_loop l.length l

/-- Any fuel of at least `l.length` lets the filler-removal loop run to
completion: the result no longer depends on the exact amount. -/
theorem remove_gen_actions_loop_fuel_irrel :
    ∀ (f g : Nat) (l : List UserActionType), l.length ≤ f → l.length ≤ g →
      remove_gen_actions_loop f l = remove_gen_actions_loop g l := by
  intro f
  induction f with
  | zero =>
    intro g l hf _
    have : l = [] := List.eq_nil_of_length_eq_zero (Nat.le_zero.mp hf)
    subst this
    cases g <;> simp [remove_gen_actions_loop]
  | succ f ih =>
    intro g l hf hg
    cases g with
    | zero =>
      have : l = [] := List.eq_nil_of_length_eq_zero (Nat.le_zero.mp hg)
      subst this
      simp [remove_gen_actions_loop]
    | succ g =>
      simp only [remove_gen_actions_loop]
      by_cases hlen : l.length > 1
      · simp only [hlen, if_true]
        by_cases ht : UserActionType.Thanks ∈ l
        · simp only [ht, if_true]
          exact ih g _ (by rw [List.length_erase_of_mem ht]; omega)
            (by rw [List.length_erase_of_mem ht]; omega)
        · simp only [ht, if_false]
          by_cases hb : UserActionType.Bad ∈ l
          · simp only [hb, if_true]
            exact ih g _ (by rw [List.length_erase_of_mem hb]; omega)
              (by rw [List.length_erase_of_mem hb]; omega)
          · simp only [hb, if_false]
            by_cases hh : UserActionType.Hello ∈ l
            · simp only [hh, if_true]
              exact ih g _ (by rw [List.length_erase_of_mem hh]; omega)
                (by rw [List.length_erase_of_mem hh]; omega)
            · simp only [hh, if_false]
      · simp only [hlen, if_false]

/-- Stable insertion step: insert `a` into `l` before the first element `b`
with `le a b` (so equal-key elements keep their input order). -/
def insortBy (le : α → α → Bool) (a : α) : List α → List α
  | [] => [a]
  | b :: l => if le a b then a :: b :: l else b :: insortBy le a l

/-- Stable sort modelling Python's built-in `sorted` with a key function:
`le a b` holds when `a` may precede `b` (it must hold for ties). -/
def py_sorted (le : α → α → Bool) : List α → List α
  | [] => []
  | a :: l => insortBy le a (py_sorted le l)

/-- Source `_get_name` (lines 409-436): the focused entity is the informed
primary-key value of highest score if the primary key was informed (`None`
for an empty candidate dict), else the identifier of the currently scrolled
suggestion, else `None`.  Python's `sorted(..., key=lambda kv: kv[1],
reverse=True)` is the stable descending sort by score. -/
def get_name (dom : Domain) (st : PolicyState) (bs : BeliefState) :
    Option String :=
  match lookupSlot dom.get_primary_key bs.informs with
  | some possible_names =>
    match py_sorted (fun a b => decide (b.2 ≤ a.2)) possible_names with
    | [] => none
    | kv :: _ => some kv.1
  | none =>
    if st.s_index < (st.current_suggestions.length : Int) then
      match pyGet st.current_suggestions st.s_index with
      | some current_suggestion =>
        if current_suggestion ≠ [] then
          some (rowGetS current_suggestion dom.get_primary_key)
        else none
      | none => none
    else none

/-- Python truthiness of `_get_name`'s result: `None` and the empty string
are both falsy. -/
def nameTruthy (n : Option String) : Bool :=
  n.getD "" ≠ ""

/-- Source `_get_constraints` (lines 438-464): the don't-care slots are the
informed slots one of whose candidate values is "dontcare"; the constraints
map every other informed slot with at least one candidate value to the list
of all its values, in insertion order. -/
def get_constraints (bs : BeliefState) :
    List (String × List String) × List String :=
  let dontcare :=
    (bs.informs.filter (fun sv => sv.2.any (fun v => v.1 = "dontcare"))).map (·.1)
  let slots :=
    (bs.informs.filter
      (fun sv => ¬ dontcare.contains sv.1 ∧ sv.2 ≠ [])).map
      (fun sv => (sv.1, sv.2.map (·.1)))
  (slots, dontcare)

/-- Source `_get_open_slot` (lines 466-483): the first system-requestable
slot with no constraint yet, or `None`. -/
def get_open_slot (dom : Domain) (bs : BeliefState) : Option String :=
  let filled_slots := (get_constraints bs).1
  dom.get_system_requestable_slots.find?
    (fun slot => ¬ (filled_slots.map (·.1)).contains slot)

/-- Charwise replacement on the underlying character list; Python's
`str.replace` with a one-character pattern replaces exactly these
occurrences. -/
def replaceChar (c r : Char) (l : List Char) : List Char :=
  l.map (fun x => if x = c then r else x)

/-- The single-quote character (ASCII 39) replaced by `_modfiy_db`. -/
def squote : Char := Char.ofNat 39

/-- The double-quote character (ASCII 34) replaced by `_modfiy_db`. -/
def dquote : Char := Char.ofNat 34

/-- Source line 330: the review with single and double quotes replaced by
spaces, modelling `review.replace("'", ' ').replace("\"", ' ')`. -/
def sanitizeReview (s : String) : String :=
  ⟨replaceChar dquote ' ' (replaceChar squote ' ' s.data)⟩

/-- Source `_modfiy_db` (lines 317-331): when a rating was given, enter it;
when a review was given, enter it with single and double quotes replaced by
spaces.  The calls are returned as data. -/
def modfiy_db (dom : Domain) (st : PolicyState) (bs : BeliefState) :
    List DbCall :=
  (if bs.given_rating ≠ "" then
    [DbCall.enter_rating bs.given_rating (get_name dom st bs)]
  else []) ++
  (if bs.review ≠ "" then
    [DbCall.enter_review (sanitizeReview bs.review) (get_name dom st bs)]
  else [])

/-- Source `_query_db` (lines 384-407): look up the requested attributes of
the focused entity when one exists and requests are outstanding; otherwise
search all entities under the current constraints. -/
def query_db (dom : Domain) (st : PolicyState) (bs : BeliefState) :
    List Row :=
  let name := get_name dom st bs
  if nameTruthy name ∧ bs.requests ≠ [] then
    dom.find_info_about_entity (name.getD "") bs.requests
  else
    dom.find_entities (get_constraints bs).1

/-- Column table built in `_raw_action` (lines 562-567): for each column of
the first result row, the values of that column across all rows, except
that the primary-key column collects nothing. -/
def build_temp (domain_key : String) (q_res : List Row) (key : String) :
    List String :=
  if (rowKeys (q_res.headD [])).contains key ∧ key ≠ domain_key then
    q_res.map (fun row => rowGetS row key)
  else []

/-- One iteration of the loop of `_highest_info_gain` (lines 621-627): a
slot with exactly two possible domain values gets an entry with the absolute
difference of the two value counts iff both values occur at least once among
the rows (`val1 in values_dic and val2 in values_dic`). -/
def infoGainEntry (dom : Domain) (temp : String → List String)
    (slot : String) : Option (String × Nat) :=
  match dom.get_possible_values slot with
  | [val1, val2] =>
    let c1 := ((temp slot).filter (fun v => v = val1)).length
    let c2 := ((temp slot).filter (fun v => v = val2)).length
    if c1 > 0 ∧ c2 > 0 then some (slot, ((c1 : Int) - (c2 : Int)).natAbs)
    else none
  | _ => none

/-- Qualifying binary slots with their absolute count difference, built in
enumeration order as in `_highest_info_gain` (lines 620-627). -/
def infoGainDiffs (dom : Domain) (bin_slots : List String)
    (temp : String → List String) : List (String × Nat) :=
  bin_slots.filterMap (infoGainEntry dom temp)

/-- Source `_highest_info_gain` (lines 607-632): among the qualifying binary
slots, pick the one of smallest absolute count difference via a stable sort
(`sorted(diffs.items(), key=lambda kv: kv[1])[0][0]`), or the empty string
when none qualifies.  A slot whose possible-value list does not have exactly
two members never occurs here (the caller filters for arity two); the model
skips such a slot. -/
def highest_info_gain (dom : Domain) (bin_slots : List String)
    (temp : String → List String) : String :=
  let diffs := infoGainDiffs dom bin_slots temp
  match py_sorted (fun a b => decide (a.2 ≤ b.2)) diffs with
  | [] => ""
  | kv :: _ => kv.1

/-- Source `_gen_next_request` (lines 578-605): restrict the requestable
slots to those neither constrained nor don't-care, split off the binary
slots, return the first non-binary slot whose values across the rows are not
all identical, else fall back to `_highest_info_gain`. -/
def gen_next_request (dom : Domain) (temp : String → List String)
    (bs : BeliefState) : String :=
  let cd := get_constraints bs
  let req_slots :=
    dom.get_system_requestable_slots.filter
      (fun s => ¬ cd.2.contains s ∧ ¬ (cd.1.map (·.1)).contains s)
  let bin_slots :=
    req_slots.filter (fun slot => (dom.get_possible_values slot).length = 2)
  let non_bin_slots := req_slots.filter (fun slot => ¬ bin_slots.contains slot)
  match non_bin_slots.find? (fun slot => (temp slot).dedup.length > 1) with
  | some slot => slot
  | none => highest_info_gain dom bin_slots temp

/-- Source `_raw_action` (lines 544-576): with more than one result row and
no outstanding requests, ask about the slot chosen by `_gen_next_request`
when it returns one; otherwise emit a raw `InformByName` to be filled in
later. -/
def raw_action (dom : Domain) (q_res : List Row) (bs : BeliefState) :
    SysAct :=
  let sys_act : SysAct := { type := SysActionType.InformByName, slot_values := [] }
  if q_res.length > 1 ∧ bs.requests = [] then
    let next_req := gen_next_request dom (build_temp dom.get_primary_key q_res) bs
    if next_req ≠ "" then
      SysAct.add_value { type := SysActionType.Request, slot_values := [] }
        next_req none
    else sys_act
  else sys_act

/-- Per-key value rendering of `_convert_inform_by_primkey` (lines 674-696):
an empty, `None` or literal-"None" value becomes the "not available"
sentinel; otherwise the per-attribute formatting rules apply.  `jsonFmt`
models the three transformations that parse the stored value with Python's
external `json` module (opening hours, reviews, manner); the parking-lot and
description rules are pure string operations and are modelled exactly. -/
def renderVal (jsonFmt : String → String → String) (k v : String) : String :=
  let res := if v ≠ "" ∧ v ≠ "None" then v else "not available"
  let res := if k = "opening_hours" ∧ res ≠ "not available" then jsonFmt k res
    else res
  let res := if k = "reviews" ∧ res ≠ "not available" then jsonFmt k res
    else res
  let res := if k = "parking_lot" ∧ res ≠ "not available" then
      (if res = "0" then "no" else if res = "1" then "a" else res)
    else res
  let res := if k = "manner" ∧ res ≠ "not available" then jsonFmt k res
    else res
  let res := if k = "description" ∧ res ≠ "not available" then "\n" ++ res
    else res
  res

/-- Source `_convert_inform_by_primkey` (lines 657-703): for a non-empty
result, render at most the first four columns of the first row, appending
the primary key with the focused name when it was not among them; for an
empty result, emit the primary key with the "none" sentinel. -/
def convert_inform_by_primkey (dom : Domain) (st : PolicyState)
    (jsonFmt : String → String → String) (q_results : List Row)
    (sys_act : SysAct) (bs : BeliefState) : SysAct :=
  let sys_act := { sys_act with type := SysActionType.InformByName }
  match q_results with
  | [] => sys_act.add_value dom.get_primary_key (some (PyVal.str "none"))
  | result :: _ =>
    let keys := (rowKeys result).take 4
    let sys_act := keys.foldl
      (fun act k =>
        act.add_value k (some (PyVal.str (renderVal jsonFmt k (rowGetS result k)))))
      sys_act
    if ¬ keys.contains dom.get_primary_key then
      sys_act.add_value dom.get_primary_key ((get_name dom st bs).map PyVal.str)
    else sys_act

/-- Source `_convert_inform_by_alternatives` (lines 705-749): cache a fresh
result set when no suggestions are cached, advance the scroll cursor, emit
the scrolled row's identifier while in bounds (the very first alternative as
`InformByName`, later ones as `InformByAlternatives`), clamp the cursor to
the last index and emit "none" past the end, and always append the current
constraints. -/
def convert_inform_by_alternatives (dom : Domain) (st : PolicyState)
    (sys_act : SysAct) (q_res : List Row) (bs : BeliefState) :
    SysAct × PolicyState :=
  let st :=
    if q_res ≠ [] ∧ st.current_suggestions = [] then
      { st with current_suggestions := q_res, s_index := -1 }
    else st
  let st := { st with s_index := st.s_index + 1 }
  let (sys_act, st) :=
    if st.s_index ≤ (st.current_suggestions.length : Int) - 1 then
      let sys_act :=
        if st.s_index = 0 then { sys_act with type := SysActionType.InformByName }
        else { sys_act with type := SysActionType.InformByAlternatives }
      let result := (pyGet st.current_suggestions st.s_index).getD []
      (sys_act.add_value dom.get_primary_key
        (some (PyVal.str (rowGetS result dom.get_primary_key))), st)
    else
      let sys_act := { sys_act with type := SysActionType.InformByAlternatives }
      let st := { st with s_index := (st.current_suggestions.length : Int) - 1 }
      (sys_act.add_value dom.get_primary_key (some (PyVal.str "none")), st)
  let constraints := (get_constraints bs).1
  let sys_act := constraints.foldl
    (fun act c => act.add_value c.1 (some (PyVal.strList c.2))) sys_act
  (sys_act, st)

/-- Source `_convert_inform_by_constraints` (lines 751-780): on a non-empty
result replace the cached suggestions, reset the cursor to 0 and emit the
first row's identifier, else emit "none"; in both cases append the current
constraints. -/
def convert_inform_by_constraints (dom : Domain) (st : PolicyState)
    (q_results : List Row) (sys_act : SysAct) (bs : BeliefState) :
    SysAct × PolicyState :=
  let (sys_act, st) :=
    match q_results with
    | [] => (sys_act.add_value dom.get_primary_key (some (PyVal.str "none")), st)
    | result :: _ =>
      let st := { st with current_suggestions := q_results, s_index := 0 }
      (sys_act.add_value dom.get_primary_key
        (some (PyVal.str (rowGetS result dom.get_primary_key))), st)
  let sys_act := { sys_act with type := SysActionType.InformByName }
  let constraints := (get_constraints bs).1
  let sys_act := constraints.foldl
    (fun act c => act.add_value c.1 (some (PyVal.strList c.2))) sys_act
  (sys_act, st)

/-- Source `_convert_inform` (lines 634-655): dispatch between the three
inform modes. -/
def convert_inform (dom : Domain) (st : PolicyState)
    (jsonFmt : String → String → String) (q_results : List Row)
    (sys_act : SysAct) (bs : BeliefState) : SysAct × PolicyState :=
  if bs.requests ≠ [] ∨ (lookupSlot dom.get_primary_key bs.informs).isSome then
    (convert_inform_by_primkey dom st jsonFmt q_results sys_act bs, st)
  else if UserActionType.RequestAlternatives ∈ bs.user_acts then
    convert_inform_by_alternatives dom st sys_act q_results bs
  else
    convert_inform_by_constraints dom st q_results sys_act bs

/-- Source `_next_action` (lines 485-542): rejection guards, the fast path
by name, then query, raw-action classification and inform conversion (with
the final "none" fallback when the converted inform carries no primary-key
value). -/
def next_action (dom : Domain) (st : PolicyState)
    (jsonFmt : String → String → String) (bs : BeliefState) :
    SysAct × PolicyState :=
  if UserActionType.Bad ∈ bs.user_acts ∨
      (bs.requests ≠ [] ∧ ¬ nameTruthy (get_name dom st bs)) then
    ({ type := SysActionType.Bad, slot_values := [] }, st)
  else if UserActionType.RequestAlternatives ∈ bs.user_acts ∧
      (get_constraints bs).1 = [] then
    ({ type := SysActionType.Bad, slot_values := [] }, st)
  else if (lookupSlot dom.get_primary_key bs.informs).isSome ∧
      bs.requests = [] then
    (SysAct.add_value { type := SysActionType.InformByName, slot_values := [] }
      dom.get_primary_key ((get_name dom st bs).map PyVal.str), st)
  else
    let results := query_db dom st bs
    let sys_act := raw_action dom results bs
    if sys_act.type = SysActionType.Request then
      (sys_act, st)
    else if sys_act.type = SysActionType.InformByName then
      let (sys_act, st) := convert_inform dom st jsonFmt results sys_act bs
      let values := sys_act.get_values dom.get_primary_key
      if values ≠ [] then (sys_act, st)
      else (sys_act.add_value dom.get_primary_key (some (PyVal.str "none")), st)
    else (sys_act, st)

/-- Source `choose_sys_act` (lines 79-290): the turn dispatcher.  The
published `sys_state` bookkeeping dictionary (`last_act`,
`lastRequestSlot`, `lastInformedPrimKeyVal`) is logging output for other
services and is not modelled; the terminal-clearing `os.system` call in the
`NewDialogue` branch is a console effect and is not modelled. -/
def choose_sys_act (dom : Domain) (jsonFmt : String → String → String)
    (st : PolicyState) (bs : BeliefState) : PolicyResult :=
  let st := { st with turns := st.turns + 1 }
  if st.first_turn ∧ bs.user_acts = [] then
    { sys_act := ⟨SysActionType.Welcome, []⟩,
      state := { st with first_turn := false }, db_calls := [] }
  else if st.first_turn ∧ UserActionType.NewDialogue ∈ bs.user_acts then
    { sys_act := ⟨SysActionType.Welcome, []⟩,
      state := { st with first_turn := false }, db_calls := [] }
  else
    let st := { st with first_turn := false }
    if st.turns ≥ st.max_turns then
      { sys_act := ⟨SysActionType.Bye, []⟩, state := st, db_calls := [] }
    else
      let bs := { bs with user_acts := remove_gen_actions bs.user_acts }
      let acts := bs.user_acts
      if UserActionType.Bad ∈ acts then
        { sys_act := ⟨SysActionType.Bad, []⟩, state := st, db_calls := [] }
      else if UserActionType.Bye ∈ acts then
        { sys_act := ⟨SysActionType.Bye, []⟩, state := st, db_calls := [] }
      else if UserActionType.Thanks ∈ acts then
        { sys_act := ⟨SysActionType.RequestMore, []⟩, state := st, db_calls := [] }
      else if UserActionType.NewDialogue ∈ acts then
        { sys_act := ⟨SysActionType.Welcome, []⟩, state := dialog_start st,
          db_calls := [] }
      else if UserActionType.Hello ∈ acts ∨ UserActionType.SelectDomain ∈ acts then
        { sys_act := ⟨SysActionType.GuideUser, []⟩, state := st, db_calls := [] }
      else if UserActionType.GiveRating ∈ acts then
        let name := get_name dom st bs
        if nameTruthy name then
          let act := SysAct.add_value
            (SysAct.add_value ⟨SysActionType.ConfirmGiveRating, []⟩
              dom.get_primary_key (name.map PyVal.str))
            "ratings_givable" (some (PyVal.str bs.given_rating))
          { sys_act := act, state := st, db_calls := modfiy_db dom st bs }
        else
          { sys_act := SysAct.add_value ⟨SysActionType.Request, []⟩ "name" none,
            state := st, db_calls := [] }
      else if UserActionType.WriteReview ∈ acts then
        let name := get_name dom st bs
        if nameTruthy name then
          { sys_act := SysAct.add_value ⟨SysActionType.AskWriteReview, []⟩
              dom.get_primary_key (name.map PyVal.str),
            state := st, db_calls := [] }
        else
          { sys_act := SysAct.add_value ⟨SysActionType.Request, []⟩ "name" none,
            state := st, db_calls := [] }
      else if UserActionType.WrittenReview ∈ acts then
        let name := get_name dom st bs
        let act := SysAct.add_value
          (SysAct.add_value ⟨SysActionType.ConfirmWriteReview, []⟩
            dom.get_primary_key (name.map PyVal.str))
          "review" (some (PyVal.str bs.review))
        { sys_act := act, state := st, db_calls := modfiy_db dom st bs }
      else if UserActionType.AskDistance ∈ acts then
        if nameTruthy (get_name dom st bs) then
          { sys_act := ⟨SysActionType.AskStartPoint, []⟩, state := st,
            db_calls := [] }
        else
          { sys_act := SysAct.add_value ⟨SysActionType.Request, []⟩ "name" none,
            state := st, db_calls := [] }
      else if UserActionType.InformStartPoint ∈ acts then
        { sys_act := ⟨SysActionType.AskDistanceManner, []⟩, state := st,
          db_calls := [] }
      else if UserActionType.InformDistanceManner ∈ acts then
        let name := get_name dom st bs
        let dd := dom.distance_duration bs.start_point name bs.distance_manner
        if dd.1 = some "BadTravelManner" ∧ dd.2 = some "BadTravelManner" then
          { sys_act := ⟨SysActionType.BadTravelManner, []⟩, state := st,
            db_calls := [] }
        else if dd.1 = none ∧ dd.2 = none then
          { sys_act := ⟨SysActionType.BadAddress, []⟩, state := st,
            db_calls := [] }
        else
          let act := SysAct.add_value
            (SysAct.add_value
              (SysAct.add_value
                (SysAct.add_value ⟨SysActionType.InformDistance, []⟩
                  dom.get_primary_key (name.map PyVal.str))
                "distance_manner" (some (PyVal.str bs.distance_manner)))
              "distance" (dd.1.map PyVal.str))
            "duration" (dd.2.map PyVal.str)
          { sys_act := act, state := st, db_calls := [] }
      else if UserActionType.AskOpeningDay ∈ acts then
        let name := get_name dom st bs
        if nameTruthy name then
          let opening_info := dom.query_opening_info bs.req_openingday name
          let act := SysAct.add_value
            (SysAct.add_value
              (SysAct.add_value ⟨SysActionType.InformOpeningDay, []⟩
                dom.get_primary_key (name.map PyVal.str))
              "opening_day" (some (PyVal.str bs.req_openingday)))
            "opening_info" (some (PyVal.str opening_info))
          { sys_act := act, state := st, db_calls := [] }
        else
          { sys_act := SysAct.add_value ⟨SysActionType.Request, []⟩ "name" none,
            state := st, db_calls := [] }
      else if UserActionType.AskManner ∈ acts then
        let name := get_name dom st bs
        if nameTruthy name then
          let manner_info := dom.query_manner_info bs.req_manner name
          let act := SysAct.add_value
            (SysAct.add_value ⟨SysActionType.InformManner, []⟩
              dom.get_primary_key (name.map PyVal.str))
            "manner_info" (some (PyVal.str manner_info))
          { sys_act := act, state := st, db_calls := [] }
        else
          { sys_act := SysAct.add_value ⟨SysActionType.Request, []⟩ "name" none,
            state := st, db_calls := [] }
      else if UserActionType.NegativeInform ∈ acts then
        { sys_act := ⟨SysActionType.WhatDoYouWant, []⟩, state := st,
          db_calls := [] }
      else if UserActionType.Hello ∈ acts ∨ UserActionType.SelectDomain ∈ acts then
        -- Unreachable: this condition is identical to the earlier GuideUser
        -- branch (source lines 264-282 are shadowed by lines 149-152); kept
        -- to mirror the source.
        let act :=
          if (get_open_slot dom bs).getD "" ≠ "" then
            SysAct.add_value ⟨SysActionType.Request, []⟩
              ((get_open_slot dom bs).getD "") none
          else ⟨SysActionType.RequestMore, []⟩
        let st := if UserActionType.SelectDomain ∈ acts then dialog_start st
          else st
        let st := { st with first_turn := false }
        { sys_act := act, state := st, db_calls := [] }
      else
        let res := next_action dom st jsonFmt bs
        { sys_act := res.1, state := res.2, db_calls := [] }

/-! ### Properties of filler suppression (`_remove_gen_actions`) -/

/-- With at most one action present the loop does nothing. -/
theorem remove_gen_actions_loop_of_len_le_one (f : Nat)
    (l : List UserActionType) (h : l.length ≤ 1) :
    remove_gen_actions_loop f l = l := by
  cases f with
  | zero => rfl
  | succ f => simp [remove_gen_actions_loop, Nat.not_lt.mpr h]

/-- With none of the three filler actions present the loop does nothing. -/
theorem remove_gen_actions_loop_of_no_filler (f : Nat)
    (l : List UserActionType) (ht : UserActionType.Thanks ∉ l)
    (hb : UserActionType.Bad ∉ l) (hh : UserActionType.Hello ∉ l) :
    remove_gen_actions_loop f l = l := by
  cases f with
  | zero => rfl
  | succ f => simp [remove_gen_actions_loop, ht, hb, hh]

/-- Exit condition of the loop: with enough fuel, the result either has at
most one element or contains no filler action. -/
theorem remove_gen_actions_loop_post (f : Nat) :
    ∀ l : List UserActionType, l.length ≤ f →
      (remove_gen_actions_loop f l).length ≤ 1 ∨
      (UserActionType.Thanks ∉ remove_gen_actions_loop f l ∧
       UserActionType.Bad ∉ remove_gen_actions_loop f l ∧
       UserActionType.Hello ∉ remove_gen_actions_loop f l) := by
  induction f with
  | zero =>
    intro l hf
    have : l = [] := List.eq_nil_of_length_eq_zero (Nat.le_zero.mp hf)
    subst this
    left
    simp [remove_gen_actions_loop]
  | succ f ih =>
    intro l hf
    simp only [remove_gen_actions_loop]
    by_cases hlen : l.length > 1
    · simp only [hlen, if_true]
      by_cases ht : UserActionType.Thanks ∈ l
      · simp only [ht, if_true]
        exact ih _ (by rw [List.length_erase_of_mem ht]; omega)
      · simp only [ht, if_false]
        by_cases hb : UserActionType.Bad ∈ l
        · simp only [hb, if_true]
          exact ih _ (by rw [List.length_erase_of_mem hb]; omega)
        · simp only [hb, if_false]
          by_cases hh : UserActionType.Hello ∈ l
          · simp only [hh, if_true]
            exact ih _ (by rw [List.length_erase_of_mem hh]; omega)
          · simp only [hh, if_false]
            right
            simp only [ht, hb, hh, not_false_iff, and_true, true_and]
            try exact ⟨ht, hb⟩
            try exact ⟨ht, hb, hh⟩
    · simp only [hlen, if_false]
      left
      omega

/-- The loop never empties a non-empty list: removal only happens while more
than one element remains. -/
theorem remove_gen_actions_loop_ne_nil (f : Nat) :
    ∀ l : List UserActionType, l ≠ [] → remove_gen_actions_loop f l ≠ [] := by
  induction f with
  | zero => intro l h; exact h
  | succ f ih =>
    intro l h
    simp only [remove_gen_actions_loop]
    by_cases hlen : l.length > 1
    · simp only [hlen, if_true]
      have herase : ∀ a : UserActionType, a ∈ l → l.erase a ≠ [] := by
        intro a ha
        have : (l.erase a).length = l.length - 1 := List.length_erase_of_mem ha
        intro hnil
        rw [hnil] at this
        simp at this
        omega
      by_cases ht : UserActionType.Thanks ∈ l
      · simp only [ht, if_true]; exact ih _ (herase _ ht)
      · simp only [ht, if_false]
        by_cases hb : UserActionType.Bad ∈ l
        · simp only [hb, if_true]; exact ih _ (herase _ hb)
        · simp only [hb, if_false]
          by_cases hh : UserActionType.Hello ∈ l
          · simp only [hh, if_true]; exact ih _ (herase _ hh)
          · simp only [hh, if_false]; exact h
    · simp only [hlen, if_false]; exact h

/-- C4: filler suppression is idempotent — applying `_remove_gen_actions`
twice yields the same list as applying it once — and it never removes the
last remaining action: the result is non-empty whenever the input is. -/
theorem claim_C4_filler_suppression_idempotent_nonempty
    (l : List UserActionType) :
    remove_gen_actions (remove_gen_actions l) = remove_gen_actions l ∧
    (l ≠ [] → remove_gen_actions l ≠ []) := by
  constructor
  · have hpost := remove_gen_actions_loop_post l.length l (Nat.le_refl _)
    unfold remove_gen_actions
    rcases hpost with h1 | ⟨ht, hb, hh⟩
    · exact remove_gen_actions_loop_of_len_le_one _ _ h1
    · exact remove_gen_actions_loop_of_no_filler _ _ ht hb hh
  · intro h
    exact remove_gen_actions_loop_ne_nil _ _ h

/-- C4 witness: a concrete instance — `[Thanks, Inform]` suppresses to
`[Inform]`, twice gives the same, and the result is non-empty. -/
theorem claim_C4_witness :
    remove_gen_actions (remove_gen_actions
        [UserActionType.Thanks, UserActionType.Inform]) =
      remove_gen_actions [UserActionType.Thanks, UserActionType.Inform] ∧
    remove_gen_actions [UserActionType.Thanks, UserActionType.Inform] ≠ [] :=
  ⟨(claim_C4_filler_suppression_idempotent_nonempty _).1,
   (claim_C4_filler_suppression_idempotent_nonempty _).2 (by decide)⟩

/-! ### Concrete instances used by witnesses and counterexamples -/

/-- A small concrete restaurant-like domain used by the witnesses. -/
def exDomain : Domain where
  get_primary_key := "name"
  get_system_requestable_slots := ["area", "food", "parking_lot"]
  get_possible_values := fun s => if s = "parking_lot" then ["0", "1"] else []
  find_entities := fun _ => []
  find_info_about_entity := fun _ _ => []
  distance_duration := fun _ _ _ => (none, none)
  query_opening_info := fun _ _ => ""
  query_manner_info := fun _ _ => ""

/-- Identity stand-in for the json-based rendering in witnesses. -/
def exJson : String → String → String := fun _ v => v

/-- An empty belief state. -/
def exEmptyBS : BeliefState where
  user_acts := []
  informs := []
  requests := []
  given_rating := ""
  review := ""
  start_point := ""
  distance_manner := ""
  req_openingday := ""
  req_manner := ""

/-- A fresh session state with the default turn budget. -/
def exInitState : PolicyState where
  first_turn := true
  current_suggestions := []
  s_index := 0
  turns := 0
  max_turns := 25

/-! ### Properties of review sanitisation (`_modfiy_db`) -/

/-- Replacing `c` by `r ≠ c` leaves no occurrence of `c`. -/
theorem replaceChar_ne (c r : Char) (hcr : r ≠ c) (l : List Char)
    (x : Char) (hx : x ∈ replaceChar c r l) : x ≠ c := by
  rcases List.mem_map.mp hx with ⟨y, _, rfl⟩
  by_cases h : y = c
  · rw [if_pos h]
    exact hcr
  · rw [if_neg h]
    exact h

/-- The sanitised review contains neither a single nor a double quote. -/
theorem sanitizeReview_no_quotes (s : String) :
    ∀ c ∈ (sanitizeReview s).data, c ≠ squote ∧ c ≠ dquote := by
  intro c hc
  have hc' : c ∈ replaceChar dquote ' ' (replaceChar squote ' ' s.data) := hc
  rcases List.mem_map.mp hc' with ⟨y, hy, rfl⟩
  have hy' : y ≠ squote := replaceChar_ne squote ' ' (by decide) _ y hy
  constructor
  · by_cases h : y = dquote
    · rw [if_pos h]
      decide
    · rw [if_neg h]
      exact hy'
  · by_cases h : y = dquote
    · rw [if_pos h]
      decide
    · rw [if_neg h]
      exact h

/-- C10: whenever the belief state's review field is non-empty, the text
passed to the domain's `enter_review` is the user's review with every single
and double quote replaced by a space, and `enter_review` is never invoked
with a quote character in its text argument. -/
theorem claim_C10_review_sanitised (dom : Domain) (st : PolicyState)
    (bs : BeliefState) (h : bs.review ≠ "") :
    DbCall.enter_review (sanitizeReview bs.review) (get_name dom st bs) ∈
      modfiy_db dom st bs ∧
    ∀ t n, DbCall.enter_review t n ∈ modfiy_db dom st bs →
      t = sanitizeReview bs.review ∧ ∀ c ∈ t.data, c ≠ squote ∧ c ≠ dquote := by
  constructor
  · unfold modfiy_db
    rw [if_pos h]
    exact List.mem_append_right _ (List.mem_singleton.mpr rfl)
  · intro t n hmem
    unfold modfiy_db at hmem
    rw [if_pos h] at hmem
    rcases List.mem_append.mp hmem with h1 | h2
    · exfalso
      by_cases hr : bs.given_rating ≠ ""
      · rw [if_pos hr] at h1
        simp at h1
      · rw [if_neg hr] at h1
        simp at h1
    · have heq := List.mem_singleton.mp h2
      injection heq with ht hn
      subst ht
      exact ⟨rfl, sanitizeReview_no_quotes _⟩

/-- A belief state in which the user entered a review containing quotes. -/
def exReviewBS : BeliefState :=
  { exEmptyBS with
    user_acts := [UserActionType.WrittenReview]
    review := "it" ++ ⟨[squote]⟩ ++ "s " ++ ⟨[dquote]⟩ ++ "great" ++ ⟨[dquote]⟩ }

/-- C10 witness: the concrete review containing both quote characters is
passed sanitised. -/
theorem claim_C10_witness :
    DbCall.enter_review (sanitizeReview exReviewBS.review)
        (get_name exDomain exInitState exReviewBS) ∈
      modfiy_db exDomain exInitState exReviewBS ∧
    ∀ t n,
      DbCall.enter_review t n ∈ modfiy_db exDomain exInitState exReviewBS →
        t = sanitizeReview exReviewBS.review ∧
        ∀ c ∈ t.data, c ≠ squote ∧ c ≠ dquote :=
  claim_C10_review_sanitised _ _ _ (by decide)

/-! ### The scroll-cursor invariant -/

/-- Validity of the scroll cursor (`s_index`): a valid index into the
suggestion list whenever that list is non-empty. -/
def ScrollInv (st : PolicyState) : Prop :=
  st.current_suggestions ≠ [] →
    0 ≤ st.s_index ∧ st.s_index < (st.current_suggestions.length : Int)

/-- Alternative scrolling preserves cursor validity. -/
theorem scroll_inv_alternatives (dom : Domain) (st : PolicyState)
    (act : SysAct) (q : List Row) (bs : BeliefState) (h : ScrollInv st) :
    ScrollInv (convert_inform_by_alternatives dom st act q bs).2 := by
  simp only [convert_inform_by_alternatives]
  split
  next h0 =>
    split
    next h1 =>
      dsimp only [ScrollInv] at *
      intro _
      have hq : 0 < q.length := List.length_pos.mpr h0.1
      constructor <;> omega
    next h1 =>
      dsimp only [ScrollInv] at *
      intro _
      have hq : 0 < q.length := List.length_pos.mpr h0.1
      constructor <;> omega
  next h0 =>
    split
    next h1 =>
      dsimp only [ScrollInv] at *
      intro hne
      rcases h hne with ⟨ha, hb⟩
      constructor <;> omega
    next h1 =>
      dsimp only [ScrollInv] at *
      intro hne
      have hq : 0 < st.current_suggestions.length := List.length_pos.mpr hne
      constructor <;> omega

/-- A constraint-based inform preserves cursor validity (it resets the
cursor to 0 on a non-empty result and leaves the state alone otherwise). -/
theorem scroll_inv_constraints (dom : Domain) (st : PolicyState)
    (act : SysAct) (q : List Row) (bs : BeliefState) (h : ScrollInv st) :
    ScrollInv (convert_inform_by_constraints dom st q act bs).2 := by
  simp only [convert_inform_by_constraints]
  cases q with
  | nil => exact h
  | cons r rest =>
    dsimp only [ScrollInv]
    intro _
    constructor
    · omega
    · have : 0 < (r :: rest).length := List.length_pos.mpr (by simp)
      omega

/-- C7: whenever the candidate list is non-empty, the scroll cursor is a
valid index in `[0, len-1]` after every operation that touches it —
alternative scrolling, constraint-based inform, and session reset. -/
theorem claim_C7_scroll_cursor_valid (dom : Domain) (st : PolicyState)
    (act : SysAct) (q : List Row) (bs : BeliefState) (h : ScrollInv st) :
    ScrollInv (convert_inform_by_alternatives dom st act q bs).2 ∧
    ScrollInv (convert_inform_by_constraints dom st q act bs).2 ∧
    ScrollInv (dialog_start st) :=
  ⟨scroll_inv_alternatives dom st act q bs h,
   scroll_inv_constraints dom st act q bs h,
   fun hne => (hne rfl).elim⟩

/-- A session state with one cached suggestion and the cursor on it. -/
def exScrollState : PolicyState where
  first_turn := false
  current_suggestions := [[("name", "x")]]
  s_index := 0
  turns := 2
  max_turns := 25

/-- A raw inform act as produced by `_raw_action`. -/
def exRawInform : SysAct where
  type := SysActionType.InformByName
  slot_values := []

/-- C7 witness: the invariant holds after each of the three operations on a
concrete one-candidate state. -/
theorem claim_C7_witness :
    ScrollInv
      (convert_inform_by_alternatives exDomain exScrollState exRawInform []
        exEmptyBS).2 ∧
    ScrollInv
      (convert_inform_by_constraints exDomain exScrollState [] exRawInform
        exEmptyBS).2 ∧
    ScrollInv (dialog_start exScrollState) :=
  claim_C7_scroll_cursor_valid _ _ _ _ _
    (fun _ => ⟨by decide, by decide⟩)

/-! ### Membership lemmas for system-action slot values -/

/-- Adding to a slot makes its stored list the old one with the new value
appended. -/
theorem lookupSlot_addToSlot_self (s : String) (v : Option PyVal)
    (l : List (String × List PyVal)) :
    lookupSlot s (addToSlot s v l) =
      some ((lookupSlot s l).getD [] ++ v.toList) := by
  induction l with
  | nil => simp [addToSlot, lookupSlot]
  | cons a l ih =>
    obtain ⟨a1, a2⟩ := a
    by_cases h : a1 = s
    · simp [addToSlot, lookupSlot, h]
    · simp [addToSlot, lookupSlot, h, ih]

/-- Adding to a different slot leaves a slot's stored list unchanged. -/
theorem lookupSlot_addToSlot_ne (s t : String) (h : t ≠ s) (v : Option PyVal)
    (l : List (String × List PyVal)) :
    lookupSlot s (addToSlot t v l) = lookupSlot s l := by
  induction l with
  | nil => simp [addToSlot, lookupSlot, h]
  | cons a l ih =>
    obtain ⟨a1, a2⟩ := a
    by_cases h1 : a1 = t
    · subst h1
      simp [addToSlot, lookupSlot, h]
    · by_cases h2 : a1 = s
      · simp [addToSlot, lookupSlot, h1, h2, Ne.symm h]
      · simp [addToSlot, lookupSlot, h1, h2, ih]

/-- A freshly added value is among the slot's values. -/
theorem mem_get_values_add_value_self (act : SysAct) (s : String) (v : PyVal) :
    v ∈ (act.add_value s (some v)).get_values s := by
  simp [SysAct.get_values, SysAct.add_value, lookupSlot_addToSlot_self]

/-- `add_value` only appends: every previously stored value stays. -/
theorem mem_get_values_add_value (act : SysAct) (s t : String)
    (w : Option PyVal) (v : PyVal) (h : v ∈ act.get_values s) :
    v ∈ (act.add_value t w).get_values s := by
  by_cases hts : t = s
  · subst hts
    simp only [SysAct.get_values, SysAct.add_value,
      lookupSlot_addToSlot_self, Option.getD_some]
    exact List.mem_append_left _ h
  · simp only [SysAct.get_values, SysAct.add_value,
      lookupSlot_addToSlot_ne s t hts w]
    exact h

/-- A fold of `add_value` steps only appends: membership is preserved. -/
theorem mem_get_values_foldl_add {β : Type} (g : β → String)
    (h : β → Option PyVal) (xs : List β) (act : SysAct) (s : String)
    (v : PyVal) (hv : v ∈ act.get_values s) :
    v ∈ (xs.foldl (fun a x => a.add_value (g x) (h x)) act).get_values s := by
  induction xs generalizing act with
  | nil => exact hv
  | cons x xs ih => exact ih _ (mem_get_values_add_value _ _ _ _ _ hv)

/-- A fold of `add_value` steps stores each step's value under its slot. -/
theorem mem_get_values_foldl_add_self {β : Type} (g : β → String)
    (h : β → Option PyVal) (xs : List β) (act : SysAct) (x : β)
    (hx : x ∈ xs) (v : PyVal) (hv : h x = some v) :
    v ∈ (xs.foldl (fun a y => a.add_value (g y) (h y)) act).get_values (g x) := by
  induction xs generalizing act with
  | nil => cases hx
  | cons y ys ih =>
    rcases List.mem_cons.mp hx with rfl | h'
    · refine mem_get_values_foldl_add g h ys _ _ _ ?_
      show v ∈ (act.add_value (g x) (h x)).get_values (g x)
      rw [hv]
      exact mem_get_values_add_value_self _ _ _
    · exact ih _ h'

/-! ### The alternatives-exhausted behaviour (C2) -/

/-- C2: at the end of a non-empty cached candidate list, a further request
for alternatives emits the "none" sentinel in the primary-key slot instead
of repeating the last candidate's identifier "x" — the code contradicts its
own docstring ("When the end of the list is reached, currently continues to
give last item in the list as a suggestion"). -/
theorem claim_C2_bug_none_past_end :
    exScrollState.current_suggestions ≠ [] ∧
    exScrollState.s_index =
      (exScrollState.current_suggestions.length : Int) - 1 ∧
    rowGetS (exScrollState.current_suggestions.getLastD []) "name" = "x" ∧
    (convert_inform_by_alternatives exDomain exScrollState exRawInform []
        exEmptyBS).1.get_values "name" = [PyVal.str "none"] := by
  decide

/-! ### The empty-result constraint inform (C8) -/

/-- C8: a constraint-based inform built from zero database rows carries the
primary-key slot with the "none" sentinel and every currently active user
constraint (each non-don't-care informed slot with all of its values). -/
theorem claim_C8_empty_result_constraints (dom : Domain) (st : PolicyState)
    (act : SysAct) (bs : BeliefState) (q : List Row) (hq : q = []) :
    PyVal.str "none" ∈
      (convert_inform_by_constraints dom st q act bs).1.get_values
        dom.get_primary_key ∧
    ∀ c vs, (c, vs) ∈ (get_constraints bs).1 →
      PyVal.strList vs ∈
        (convert_inform_by_constraints dom st q act bs).1.get_values c := by
  subst hq
  constructor
  · exact mem_get_values_foldl_add (fun c : String × List String => c.1)
      (fun c => some (PyVal.strList c.2)) _ _ _ _
      (mem_get_values_add_value_self act dom.get_primary_key
        (PyVal.str "none"))
  · intro c vs hcs
    exact mem_get_values_foldl_add_self (fun c : String × List String => c.1)
      (fun c => some (PyVal.strList c.2)) _ _ (c, vs) hcs _ rfl

/-- A belief state with one active constraint (`food = pizza`) and one
don't-care slot (`area`). -/
def exConstraintBS : BeliefState :=
  { exEmptyBS with
    informs := [("food", [("pizza", 1)]), ("area", [("dontcare", 1)])] }

/-- C8 witness: on the concrete belief state with an empty query result, the
inform carries `name = none` and echoes `food = [pizza]`. -/
theorem claim_C8_witness :
    PyVal.str "none" ∈
      (convert_inform_by_constraints exDomain exScrollState [] exRawInform
        exConstraintBS).1.get_values exDomain.get_primary_key ∧
    ∀ c vs, (c, vs) ∈ (get_constraints exConstraintBS).1 →
      PyVal.strList vs ∈
        (convert_inform_by_constraints exDomain exScrollState [] exRawInform
          exConstraintBS).1.get_values c :=
  claim_C8_empty_result_constraints _ _ _ _ _ rfl

/-! ### The "not available" sentinel (C9) -/

/-- An empty or null stored value always renders as the sentinel. -/
theorem renderVal_not_available (f : String → String → String) (k v : String)
    (h : v = "" ∨ v = "None") : renderVal f k v = "not available" := by
  rcases h with rfl | rfl <;> simp [renderVal]

/-- C9: in a by-primary-key inform built from a non-empty result, every
covered attribute (one of the first four columns of the first row) whose
stored value is missing/empty/null is emitted with the "not available"
sentinel — it is never left out of the action's slots. -/
theorem claim_C9_not_available_sentinel (dom : Domain) (st : PolicyState)
    (f : String → String → String) (act : SysAct) (bs : BeliefState)
    (result : Row) (rest : List Row) (k : String)
    (hk : k ∈ (rowKeys result).take 4)
    (hv : rowGetS result k = "" ∨ rowGetS result k = "None") :
    PyVal.str "not available" ∈
      (convert_inform_by_primkey dom st f (result :: rest) act
        bs).get_values k := by
  have hrender : renderVal f k (rowGetS result k) = "not available" :=
    renderVal_not_available f k _ hv
  simp only [convert_inform_by_primkey]
  split
  next hcontains =>
    refine mem_get_values_add_value _ _ _ _ _ ?_
    rw [← hrender]
    exact mem_get_values_foldl_add_self (fun k' => k')
      (fun k' => some (PyVal.str (renderVal f k' (rowGetS result k')))) _ _ _
      hk _ rfl
  next hcontains =>
    rw [← hrender]
    exact mem_get_values_foldl_add_self (fun k' => k')
      (fun k' => some (PyVal.str (renderVal f k' (rowGetS result k')))) _ _ _
      hk _ rfl

/-- A database row whose `opening_hours` value is empty and whose `food`
value is the literal "None". -/
def exSparseRow : Row :=
  [("name", "n1"), ("opening_hours", ""), ("food", "None"), ("area", "east")]

/-- C9 witness: the concrete sparse row renders its empty `opening_hours`
attribute as "not available". -/
theorem claim_C9_witness :
    PyVal.str "not available" ∈
      (convert_inform_by_primkey exDomain exScrollState exJson [exSparseRow]
        exRawInform exEmptyBS).get_values "opening_hours" :=
  claim_C9_not_available_sentinel _ _ _ _ _ _ _ _ (by decide)
    (Or.inl (by decide))

/-! ### The information-gain selector (C5) -/

/-- Spec-side selector for C5: the first pair with minimal second component
("the slot with the smallest absolute difference between the two value
counts, ties broken by the stable enumeration order"). -/
def firstMinimalDiff : List (String × Nat) → Option (String × Nat)
  | [] => none
  | a :: l =>
    match firstMinimalDiff l with
    | none => some a
    | some b => if a.2 ≤ b.2 then some a else some b

/-- Head of a stable insertion step. -/
theorem head?_insortBy (le : α → α → Bool) (a : α) (s : List α) :
    (insortBy le a s).head? =
      some (match s.head? with
        | none => a
        | some b => if le a b then a else b) := by
  cases s with
  | nil => rfl
  | cons b t => cases hle : le a b <;> simp [insortBy, hle]

/-- The stable sort of a non-empty list is non-empty. -/
theorem py_sorted_eq_nil (le : α → α → Bool) (l : List α) :
    py_sorted le l = [] ↔ l = [] := by
  cases l with
  | nil => simp [py_sorted]
  | cons a t =>
    simp only [py_sorted]
    constructor
    · intro h
      have := head?_insortBy le a (py_sorted le t)
      rw [h] at this
      simp at this
    · intro h
      cases h

/-- The head of the stable sort by second component is the first element of
minimal second component. -/
theorem head?_py_sorted_firstMin (l : List (String × Nat)) :
    (py_sorted (fun a b => decide (a.2 ≤ b.2)) l).head? =
      firstMinimalDiff l := by
  induction l with
  | nil => rfl
  | cons a t ih =>
    simp only [py_sorted, firstMinimalDiff]
    rw [head?_insortBy]
    cases ht : py_sorted (fun a b => decide (a.2 ≤ b.2)) t with
    | nil =>
      have ht' : t = [] := (py_sorted_eq_nil _ _).mp ht
      subst ht'
      simp [firstMinimalDiff]
    | cons b s =>
      rw [ht] at ih
      simp only [List.head?_cons] at ih
      rw [← ih]
      simp only [List.head?_cons]
      by_cases h : a.2 ≤ b.2 <;> simp [h]

/-- The sorted-head selection of `_highest_info_gain` equals the spec-side
first-minimum selection. -/
theorem highest_info_gain_eq_firstMin (dom : Domain) (bin_slots : List String)
    (temp : String → List String) :
    highest_info_gain dom bin_slots temp =
      ((firstMinimalDiff (infoGainDiffs dom bin_slots temp)).map
        (fun kv => kv.1)).getD "" := by
  simp only [highest_info_gain]
  rw [← head?_py_sorted_firstMin]
  cases hs : py_sorted (fun a b => decide (a.2 ≤ b.2))
      (infoGainDiffs dom bin_slots temp) <;> rfl

/-- An entry of the difference table names the slot it was built from. -/
theorem infoGainEntry_fst (dom : Domain) (temp : String → List String)
    (slot : String) (kv : String × Nat)
    (h : infoGainEntry dom temp slot = some kv) : kv.1 = slot := by
  unfold infoGainEntry at h
  rcases hpv : dom.get_possible_values slot with _ | ⟨v1, _ | ⟨v2, _ | ⟨v3, rest⟩⟩⟩ <;>
    rw [hpv] at h
  · cases h
  · cases h
  · dsimp only at h
    split_ifs at h with hc
    all_goals
      injection h with h1
      subst h1
      rfl
  · cases h

/-- A binary slot one of whose two possible values never occurs among the
rows gets no entry in the difference table. -/
theorem infoGainEntry_skip (dom : Domain) (temp : String → List String)
    (slot val1 val2 : String)
    (hpv : dom.get_possible_values slot = [val1, val2])
    (hzero : ((temp slot).filter (fun v => v = val1)).length = 0 ∨
             ((temp slot).filter (fun v => v = val2)).length = 0) :
    infoGainEntry dom temp slot = none := by
  unfold infoGainEntry
  rw [hpv]
  rcases hzero with h | h <;> simp [h]

/-- A binary slot missing either value among the rows is skipped by the
selector's difference table entirely. -/
theorem mem_infoGainDiffs_skip (dom : Domain) (bin_slots : List String)
    (temp : String → List String) (slot val1 val2 : String)
    (hpv : dom.get_possible_values slot = [val1, val2])
    (hzero : ((temp slot).filter (fun v => v = val1)).length = 0 ∨
             ((temp slot).filter (fun v => v = val2)).length = 0) :
    slot ∉ (infoGainDiffs dom bin_slots temp).map (fun kv => kv.1) := by
  intro hmem
  rcases List.mem_map.mp hmem with ⟨kv, hkv, hfst⟩
  rcases List.mem_filterMap.mp hkv with ⟨s, _, hsome⟩
  have hs : kv.1 = s := infoGainEntry_fst dom temp s kv hsome
  have hslot : s = slot := by rw [← hs, hfst]
  subst hslot
  rw [infoGainEntry_skip dom temp s val1 val2 hpv hzero] at hsome
  cases hsome

/-- Concrete domain for the C5 instance: two binary slots `A` and `B`. -/
def exDomainAB : Domain :=
  { exDomain with
    get_system_requestable_slots := ["A", "B"]
    get_possible_values := fun s =>
      if s = "A" then ["a1", "a2"]
      else if s = "B" then ["b1", "b2"] else [] }

/-- Concrete column table for the C5 instance: slot `A` split 3/2, slot `B`
split 5/0. -/
def exTempAB : String → List String := fun s =>
  if s = "A" then ["a1", "a1", "a1", "a2", "a2"]
  else if s = "B" then ["b1", "b1", "b1", "b1", "b1"] else []

/-- C5: the selector's difference table only holds binary slots both of
whose two possible values occur among the rows (a slot missing either value
is skipped), the returned slot is the first one of smallest absolute count
difference in stable enumeration order, and on the concrete instance with
`A` split 3/2 and `B` split 5/0 the selector returns `A`. -/
theorem claim_C5_highest_info_gain (dom : Domain) (bin_slots : List String)
    (temp : String → List String) :
    highest_info_gain dom bin_slots temp =
      ((firstMinimalDiff (infoGainDiffs dom bin_slots temp)).map
        (fun kv => kv.1)).getD "" ∧
    (∀ slot val1 val2, dom.get_possible_values slot = [val1, val2] →
      ((temp slot).filter (fun v => v = val1)).length = 0 ∨
        ((temp slot).filter (fun v => v = val2)).length = 0 →
      slot ∉ (infoGainDiffs dom bin_slots temp).map (fun kv => kv.1)) ∧
    highest_info_gain exDomainAB ["A", "B"] exTempAB = "A" :=
  ⟨highest_info_gain_eq_firstMin dom bin_slots temp,
   fun slot val1 val2 hpv hzero =>
     mem_infoGainDiffs_skip dom bin_slots temp slot val1 val2 hpv hzero,
   by decide⟩

/-- C5 witness: on the concrete instance, slot `B` (split 5/0) really is
skipped and the selector returns `A` (split 3/2). -/
theorem claim_C5_witness :
    exDomainAB.get_possible_values "B" = ["b1", "b2"] ∧
    ((exTempAB "B").filter (fun v => v = "b2")).length = 0 ∧
    "B" ∉ (infoGainDiffs exDomainAB ["A", "B"] exTempAB).map
      (fun kv => kv.1) ∧
    highest_info_gain exDomainAB ["A", "B"] exTempAB = "A" :=
  ⟨by decide, by decide,
   (claim_C5_highest_info_gain exDomainAB ["A", "B"] exTempAB).2.1 "B" "b1"
     "b2" (by decide) (Or.inr (by decide)),
   (claim_C5_highest_info_gain exDomainAB ["A", "B"] exTempAB).2.2⟩

/-! ### The next-question selector (C6) -/

/-- Finding in a filtered list is finding with the conjoined predicate. -/
theorem find?_filterList (l : List String) (p q : String → Bool) :
    (l.filter p).find? q = l.find? (fun a => p a && q a) := by
  induction l with
  | nil => rfl
  | cons a l ih =>
    by_cases hp : p a <;> by_cases hq : q a <;>
      simp [List.filter_cons, List.find?_cons, hp, hq, ih]

/-- For a member of the base list, membership in a filtering equals the
filter predicate. -/
theorem contains_filter (l : List String) (B : String → Bool) (t : String)
    (ht : t ∈ l) : (l.filter B).contains t = B t := by
  cases hB : B t
  · refine Bool.eq_false_iff.mpr (fun h => ?_)
    have hmem := List.elem_iff.mp h
    have := (List.mem_filter.mp hmem).2
    rw [hB] at this
    cases this
  · exact List.elem_iff.mpr (List.mem_filter.mpr ⟨ht, hB⟩)

/-- `find?` only depends on the predicate's values on the list. -/
theorem find?_congr_mem (l : List String) (p q : String → Bool)
    (h : ∀ a ∈ l, p a = q a) : l.find? p = l.find? q := by
  induction l with
  | nil => rfl
  | cons a l ih =>
    have ha := h a (List.mem_cons_self a l)
    simp only [List.find?_cons]
    rw [← ha]
    cases hp : p a
    · exact ih (fun b hb => h b (List.mem_cons_of_mem a hb))
    · rfl

/-- The success condition of the non-binary scan of `_gen_next_request`,
expressed directly over the domain's canonical requestable-slot order: the
slot is neither don't-care nor constrained, is not binary (its possible
values are not exactly two), and its values across the result rows are not
all identical. -/
def openNonBinaryDiscriminating (dom : Domain) (temp : String → List String)
    (bs : BeliefState) : String → Bool := fun t =>
  decide (¬ (get_constraints bs).2.contains t ∧
      ¬ ((get_constraints bs).1.map (fun sv => sv.1)).contains t) &&
  (!decide ((dom.get_possible_values t).length = 2) &&
    decide ((temp t).dedup.length > 1))

/-- The staged filters of `_gen_next_request` amount to one scan of the
canonical slot list: the returned slot is the first open, non-binary,
discriminating one. -/
theorem gen_next_request_eq_of_find? (dom : Domain)
    (temp : String → List String) (bs : BeliefState) (s : String)
    (hs : dom.get_system_requestable_slots.find?
        (openNonBinaryDiscriminating dom temp bs) = some s) :
    gen_next_request dom temp bs = s := by
  simp only [gen_next_request]
  rw [find?_filterList, find?_filterList]
  rw [find?_congr_mem _ _ (openNonBinaryDiscriminating dom temp bs) ?_]
  · rw [hs]
  · intro t ht
    by_cases hP : (¬ (get_constraints bs).2.contains t ∧
        ¬ ((get_constraints bs).1.map (fun sv => sv.1)).contains t)
    · have htcf : t ∈ (dom.get_system_requestable_slots.filter
          (fun s => decide (¬ (get_constraints bs).2.contains s ∧
            ¬ ((get_constraints bs).1.map (fun sv => sv.1)).contains s))) :=
        List.mem_filter.mpr ⟨ht, by simpa using hP⟩
      simp only [openNonBinaryDiscriminating]
      rw [contains_filter _ _ _ htcf]
      cases hB : decide ((dom.get_possible_values t).length = 2) <;>
        simp [hB]
    · have hP' : t ∈ (get_constraints bs).2 ∨
          t ∈ ((get_constraints bs).1.map (fun sv => sv.1)) := by
        by_contra hc
        push_neg at hc
        exact hP ⟨by simpa using hc.1, by simpa using hc.2⟩
      rcases hP' with h | h <;> simp [openNonBinaryDiscriminating, h]

/-- C6: with more than one result row and no outstanding requests, the
policy requests the first system-requestable slot in canonical order that is
neither constrained nor don't-care, is non-binary, and whose values across
the result rows are not all identical. -/
theorem claim_C6_first_discriminating_nonbinary (dom : Domain)
    (q_res : List Row) (bs : BeliefState) (s : String)
    (hrows : q_res.length > 1) (hreq : bs.requests = [])
    (hs : dom.get_system_requestable_slots.find?
        (openNonBinaryDiscriminating dom
          (build_temp dom.get_primary_key q_res) bs) = some s)
    (hne : s ≠ "") :
    raw_action dom q_res bs =
      SysAct.add_value ⟨SysActionType.Request, []⟩ s none := by
  have hg := gen_next_request_eq_of_find? dom
    (build_temp dom.get_primary_key q_res) bs s hs
  simp only [raw_action]
  rw [if_pos ⟨hrows, hreq⟩, hg, if_pos hne]

/-- Three candidate rows differing only in the non-binary slot `area`. -/
def exRows6 : List Row :=
  [[("name", "n1"), ("area", "east"), ("food", "x"), ("parking_lot", "0")],
   [("name", "n2"), ("area", "west"), ("food", "x"), ("parking_lot", "0")],
   [("name", "n3"), ("area", "north"), ("food", "x"), ("parking_lot", "0")]]

/-- C6 witness: on three rows differing only in `area`, the policy requests
exactly `area`. -/
theorem claim_C6_witness :
    raw_action exDomain exRows6 exEmptyBS =
      SysAct.add_value ⟨SysActionType.Request, []⟩ "area" none :=
  claim_C6_first_discriminating_nonbinary exDomain exRows6 exEmptyBS "area"
    (by decide) rfl (by decide) (by decide)

/-! ### The turn budget (C1) -/

/-- A belief state whose only user act is Hello. -/
def exHelloBS : BeliefState :=
  { exEmptyBS with user_acts := [UserActionType.Hello] }


/-- A session state on its first turn with a turn budget of one. -/
def exMaxOneState : PolicyState where
  first_turn := true
  current_suggestions := []
  s_index := 0
  turns := 0
  max_turns := 1

/-- C1 counterexample: with a turn budget of one, the very first invocation
already has turn count ≥ max, yet an empty user-action set on the first turn
yields Welcome, not Bye — the first-turn branches run before the budget
check. -/
theorem claim_C1_counterexample :
    exMaxOneState.turns + 1 ≥ exMaxOneState.max_turns ∧
    exMaxOneState.first_turn = true ∧
    exEmptyBS.user_acts = [] ∧
    (choose_sys_act exDomain exJson exMaxOneState exEmptyBS).sys_act.type =
      SysActionType.Welcome ∧
    (choose_sys_act exDomain exJson exMaxOneState exEmptyBS).sys_act.type ≠
      SysActionType.Bye := by
  decide

/-- C1 (amended): once the turn count has reached the configured maximum,
every invocation of the decision function returns Bye regardless of the
user-action set, except on a first turn whose user-action set is empty or
contains NewDialogue, where the Welcome branches take precedence (they run
before the budget check). -/
theorem claim_C1_amended_bye_on_budget (dom : Domain)
    (jsonFmt : String → String → String) (st : PolicyState)
    (bs : BeliefState)
    (hft : ¬ (st.first_turn = true ∧
      (bs.user_acts = [] ∨ UserActionType.NewDialogue ∈ bs.user_acts)))
    (hmax : st.turns + 1 ≥ st.max_turns) :
    (choose_sys_act dom jsonFmt st bs).sys_act.type = SysActionType.Bye := by
  simp only [choose_sys_act]
  rw [if_neg (fun hc => hft ⟨hc.1, Or.inl hc.2⟩)]
  rw [if_neg (fun hc => hft ⟨hc.1, Or.inr hc.2⟩)]
  rw [if_pos hmax]

/-- A session past its turn budget, not on the first turn. -/
def exExpiredState : PolicyState where
  first_turn := false
  current_suggestions := []
  s_index := 0
  turns := 30
  max_turns := 25

/-- C1 witness: an expired session answers a Hello with Bye. -/
theorem claim_C1_witness :
    (choose_sys_act exDomain exJson exExpiredState exHelloBS).sys_act.type =
      SysActionType.Bye :=
  claim_C1_amended_bye_on_budget _ _ _ _ (by decide) (by decide)

/-! ### The Hello / SelectDomain branch (C3) -/

/-- C3 counterexample: with Hello present, no earlier meta-act, and an open
requestable slot available, the dispatcher emits GuideUser — neither a
Request for the open slot nor a RequestMore.  The open-slot Request branch
(source lines 264-282) is shadowed by the GuideUser branch (lines
149-152). -/
theorem claim_C3_counterexample :
    UserActionType.Hello ∈ exHelloBS.user_acts ∧
    (get_open_slot exDomain exHelloBS).isSome ∧
    (choose_sys_act exDomain exJson exScrollState exHelloBS).sys_act.type =
      SysActionType.GuideUser ∧
    (choose_sys_act exDomain exJson exScrollState exHelloBS).sys_act.type ≠
      SysActionType.Request ∧
    (choose_sys_act exDomain exJson exScrollState exHelloBS).sys_act.type ≠
      SysActionType.RequestMore := by
  decide

/-- C3 (amended): when the user-action set after filler suppression contains
Hello or SelectDomain and no earlier meta-act (Bad, Bye, Thanks,
NewDialogue) applies, the dispatcher emits a GuideUser action; the
request-an-open-slot / RequestMore logic is unreachable for these acts. -/
theorem claim_C3_amended_guide_user (dom : Domain)
    (jsonFmt : String → String → String) (st : PolicyState)
    (bs : BeliefState)
    (hft : ¬ (st.first_turn = true ∧
      (bs.user_acts = [] ∨ UserActionType.NewDialogue ∈ bs.user_acts)))
    (hmax : st.turns + 1 < st.max_turns)
    (hhello : UserActionType.Hello ∈ remove_gen_actions bs.user_acts ∨
      UserActionType.SelectDomain ∈ remove_gen_actions bs.user_acts)
    (hbad : UserActionType.Bad ∉ remove_gen_actions bs.user_acts)
    (hbye : UserActionType.Bye ∉ remove_gen_actions bs.user_acts)
    (hthanks : UserActionType.Thanks ∉ remove_gen_actions bs.user_acts)
    (hnew : UserActionType.NewDialogue ∉ remove_gen_actions bs.user_acts) :
    (choose_sys_act dom jsonFmt st bs).sys_act.type =
      SysActionType.GuideUser := by
  simp only [choose_sys_act]
  rw [if_neg (fun hc => hft ⟨hc.1, Or.inl hc.2⟩)]
  rw [if_neg (fun hc => hft ⟨hc.1, Or.inr hc.2⟩)]
  rw [if_neg (show ¬ (st.turns + 1 ≥ st.max_turns) by omega)]
  rw [if_neg hbad, if_neg hbye, if_neg hthanks, if_neg hnew, if_pos hhello]

/-- C3 witness: a plain Hello on an ordinary mid-dialog state yields
GuideUser. -/
theorem claim_C3_witness :
    (choose_sys_act exDomain exJson exScrollState exHelloBS).sys_act.type =
      SysActionType.GuideUser :=
  claim_C3_amended_guide_user _ _ _ _ (by decide) (by decide)
    (Or.inl (by decide)) (by decide) (by decide) (by decide) (by decide)

end Handcrafted
